import Mathlib

/-!
# Verification of the l3-react-blocks-construct core logic

A shallow embedding, in Lean 4, of the two subsystems the specification
treats as the core of this repository:

* the client-side activity-log filter engine
  (`src/pages/activity-log-v2/activity-log.tsx`), and
* the HTTP client wrapper with refresh-on-401 retry
  (the unnamed module defining `clients`, `HttpError`, `createHeaders`,
  `handleAuthError`).

Pure functions of the source are translated to Lean functions; the
effectful HTTP client is translated to a fuel-indexed interpreter over an
explicit client state (session store, call counters, event trace) and an
explicit world (the scripted outcomes of `fetch` and of the refresh
endpoint). JavaScript strings are modelled as Lean `String`, with the
string primitives (`toLowerCase`, `startsWith`, `endsWith`, `includes`)
modelled on the character lists; the Unicode details of the JavaScript
case map and of the `\s` character class are abstracted to
`Char.toLower` and `Char.isWhitespace`. JSON objects are modelled as
association lists of string pairs; `undefined`/`null` as `Option`.
-/

namespace Blocks

/-! ## Filter engine: data model (activity-log.tsx) -/

/-- One timeline item of an activity group: `{ description, category }`.
The further display fields of the source data are irrelevant to the
filter and omitted. -/
structure ActivityItem where
  description : String
  category : String
deriving DecidableEq, Repr

/-- One activity group: a top-level `date` (modelled as the millisecond
timestamp that `new Date(activity.date).getTime()` yields) and its
`items`. -/
structure ActivityGroup where
  date : Int
  items : List ActivityItem
deriving DecidableEq, Repr

/-- The `DateRange` of react-day-picker as consumed by the filter: both
endpoints optional, modelled as millisecond timestamps (`getTime`). -/
structure DateRange where
  fromDate : Option Int
  toDate : Option Int
deriving DecidableEq, Repr

/-! ## Filter engine: operations -/

/-- Normalization `transformCategory` from activity-log.tsx:
`category.toLowerCase().replace(/\s+/g, '_')` — lowercase, then each
maximal run of whitespace becomes a single underscore.
`collapseWsAux prevWs cs` carries whether the previous character was
whitespace, so a run contributes one `'_'`. -/
def collapseWsAux : Bool → List Char → List Char
  | _, [] => []
  | prevWs, c :: cs =>
    if c.isWhitespace then
      if prevWs then collapseWsAux true cs
      else '_' :: collapseWsAux true cs
    else c :: collapseWsAux false cs

/-- JavaScript `toLowerCase`, modelled on the character list
(`Char.toLower` abstracts the Unicode case map). -/
def strToLower (s : String) : String :=
  ⟨s.toList.map Char.toLower⟩

/-- JavaScript `startsWith`, modelled on the character lists. -/
def strStartsWith (s pre : String) : Bool :=
  pre.toList.isPrefixOf s.toList

/-- JavaScript `endsWith`, modelled on the character lists. -/
def strEndsWith (s post : String) : Bool :=
  post.toList.isSuffixOf s.toList

/-- Function `transformCategory`: see `collapseWsAux`. -/
def transformCategory (category : String) : String :=
  ⟨collapseWsAux false (strToLower category).toList⟩

/-- JavaScript `String.prototype.includes`: substring containment,
here via list-infix on the character lists. -/
def strIncludes (s sub : String) : Bool :=
  decide (sub.toList <:+: s.toList)

/-- The text predicate of the filter:
`item.description.toLowerCase().includes(query.toLowerCase())`. -/
def matchesQuery (query : String) (item : ActivityItem) : Bool :=
  strIncludes (strToLower item.description) (strToLower query)

/-- The date-range stage of `filterActivities`: active only when both
`range.from` and `range.to` are present (`range?.from && range?.to`;
`Date` objects are always truthy); keeps groups whose date lies in
`[from, to]` inclusive. -/
def stageDate (range : Option DateRange) (l : List ActivityGroup) : List ActivityGroup :=
  match range with
  | some r =>
    match r.fromDate, r.toDate with
    | some fromTs, some toTs =>
      l.filter fun activity => decide (fromTs ≤ activity.date) && decide (activity.date ≤ toTs)
    | _, _ => l
  | none => l

/-- The text stage of `filterActivities`: active when `query` is truthy
(non-empty); keeps in each group the items whose description contains the
query case-insensitively, then drops groups with zero items. -/
def stageText (query : String) (l : List ActivityGroup) : List ActivityGroup :=
  if query == "" then l
  else
    (l.map fun group => { group with items := group.items.filter (matchesQuery query) }).filter
      fun group => decide (0 < group.items.length)

/-- The category stage of `filterActivities`: active when
`categories.length > 0`; keeps in each group the items with
`categories.includes(transformCategory(item.category))`, then drops groups
with zero items. -/
def stageCat (categories : List String) (l : List ActivityGroup) : List ActivityGroup :=
  if 0 < categories.length then
    (l.map fun group =>
        { group with
          items := group.items.filter fun item => categories.contains (transformCategory item.category) }).filter
      fun group => decide (0 < group.items.length)
  else l

/-- Function `filterActivities` from activity-log.tsx, parameterised by the source
list it closes over: the date stage, then the text stage, then the
category stage. -/
def filterActivities (all : List ActivityGroup) (query : String) (range : Option DateRange)
    (categories : List String) : List ActivityGroup :=
  stageCat categories (stageText query (stageDate range all))

/-! ## HTTP client: data model

The client module reads three environment values (backend URL, blocks
key, cookie flag), keeps its tokens in an external session store
(`useAuthStore`), calls `fetch`, and calls the refresh endpoint through
`getRefreshToken`. The store's state is carried explicitly; the outcomes
of `fetch` and of `getRefreshToken` are scripted by a `World` (one entry
per successive call). -/

/-- The four request methods of the `RequestOptions` union. -/
inductive Method where
  | GET | POST | PUT | DELETE
deriving DecidableEq, Repr

/-- A parsed JSON object, as far as the client inspects one: an
association list from field name to string value. -/
abbrev JsonObj := List (String × String)

/-- The environment configuration consumed by the client:
`REACT_APP_PUBLIC_BACKEND_URL`, `REACT_APP_PUBLIC_X_BLOCKS_KEY`,
`REACT_APP_COOKIE_ENABLED` (raw string value; the code compares it to
the literal "false"). -/
structure Config where
  backendUrl : String
  blocksKey : String
  cookieEnabled : String
deriving DecidableEq, Repr

/-- The auth session store, as the client sees it:
`{ accessToken, refreshToken }`, each possibly `null`/`undefined`
(`none`). -/
structure Session where
  accessToken : Option String
  refreshToken : Option String
deriving DecidableEq, Repr

/-- Outcome of one `fetch` call: an ok (2xx) response whose body parses
to `payload`; a non-ok response with a `status` and parsed error `body`;
or a transport failure (the promise rejects). -/
inductive FetchOutcome where
  | ok (payload : String)
  | errStatus (status : Nat) (body : JsonObj)
  | netFail
deriving DecidableEq, Repr

/-- Result object of `getRefreshToken()`: the client reads only its
`.error` and `.access_token` fields. -/
structure RefreshRes where
  error : Option String
  access_token : Option String
deriving DecidableEq, Repr

/-- The scripted outside world: the outcome of the n-th `fetch` call and
of the n-th `getRefreshToken` call. -/
structure World where
  fetches : Nat → FetchOutcome
  refreshes : Nat → RefreshRes

/-- Observable events of one client run: a `fetch` with the full URL,
method, the headers built by `createHeaders`, and the body attached to
the config (if any); or a call to the refresh endpoint. -/
inductive Event where
  | fetchEv (url : String) (method : Method) (headers : JsonObj) (body : Option String)
  | refreshEv
deriving DecidableEq, Repr

/-- Class `HttpError`: numeric status plus the parsed error object. (The
derived `message` string of the class adds no information and is
omitted.) -/
structure HttpError where
  status : Nat
  error : JsonObj
deriving DecidableEq, Repr

/-- Result of a `request` run: the deserialized payload, a thrown
`HttpError`, or fuel exhaustion of the interpreter (the source has no
such bound: reaching this outcome means the source recursion is still
running). -/
inductive ReqResult where
  | ok (payload : String)
  | err (e : HttpError)
  | outOfFuel
deriving DecidableEq, Repr

/-- The mutable state threaded through a run: the session store, how many
`fetch` and refresh calls have happened, and the event trace so far. -/
structure ClientState where
  session : Session
  fetchCount : Nat
  refreshCount : Nat
  trace : List Event
deriving DecidableEq, Repr

/-! ## HTTP client: operations -/

/-- JavaScript `replace(/\/$/, '')`: remove one trailing slash if
present (used to form `BASE_URL` from the environment value). -/
def stripTrailingSlash (s : String) : String :=
  if strEndsWith s "/" then ⟨s.toList.dropLast⟩ else s

/-- JavaScript `replace(/^\//, '')`: remove one leading slash if
present. -/
def stripLeadingSlash (s : String) : String :=
  if strStartsWith s "/" then ⟨s.toList.drop 1⟩ else s

/-- URL resolution of `request`:
`url.startsWith('http') ? url : BASE_URL + '/' + url.replace(/^\//, '')`
with `BASE_URL` the environment backend URL stripped of one trailing
slash. -/
def resolveUrl (backendUrl url : String) : String :=
  if strStartsWith url "http" then url
  else stripTrailingSlash backendUrl ++ "/" ++ stripLeadingSlash url

/-- Spec-side definition, for comparison with `resolveUrl` (not from the
source): the spec says "an absolute URL is passed through unchanged, and
a relative path is prefixed with the configured base URL"; an absolute
URL in the conventional sense is one carrying an http(s) scheme. -/
def isAbsoluteUrl (s : String) : Bool :=
  strStartsWith s "http://" || strStartsWith s "https://"

/-- JavaScript truthiness of an optional string (`null`, `undefined` and
`""` are falsy). -/
def truthy : Option String → Bool
  | none => false
  | some s => !(s == "")

/-- Object-spread merge `{...a, ...b}` on JSON objects: the keys of `a`
in order, each taking `b`'s value when `b` also has the key, followed by
the keys of `b` absent from `a`, in order. -/
def spreadMerge (a b : JsonObj) : JsonObj :=
  (a.map fun kv => (kv.1, ((b.lookup kv.1).getD kv.2))) ++
    b.filter fun kv => (a.lookup kv.1).isNone

/-- The `baseHeaders` object built inside `createHeaders`: content type,
blocks key, and — when `REACT_APP_COOKIE_ENABLED === 'false'` and the
stored access token is truthy — a lowercase-`bearer` Authorization
header. -/
def baseHeaders (cfg : Config) (session : Session) : JsonObj :=
  let authToken : Option String :=
    if cfg.cookieEnabled == "false" then session.accessToken else none
  [("Content-Type", "application/json"), ("x-blocks-key", cfg.blocksKey)] ++
    (if truthy authToken then [("Authorization", "bearer " ++ authToken.getD "")] else [])

/-- The caller-supplied `HeadersInit` of the client methods: either a
plain object literal, carried as its entry list, or a `Headers`
instance, carried as the pairs it was built from (its observable state
is `headersFill` of those pairs). -/
inductive HeaderInit where
  | record (entries : JsonObj)
  | headersObj (entries : JsonObj)
deriving DecidableEq, Repr

/-- One append step of the `Headers` fill: the entry's name is
lowercased; when the list already holds that name, the new value is
combined onto the existing one with ", " (the combined value the
`Headers` class reports for a name), otherwise the entry is appended. -/
def addHeader (acc : JsonObj) (kv : String × String) : JsonObj :=
  match acc.lookup (strToLower kv.1) with
  | some _ => acc.map fun e => if e.1 == strToLower kv.1 then (e.1, e.2 ++ ", " ++ kv.2) else e
  | none => acc ++ [(strToLower kv.1, kv.2)]

/-- The observable entry list of `new Headers(obj)`: every record entry
is appended in order via `addHeader`, so names are lowercased and
case-variant duplicates are combined with ", ". (The sorted iteration
order of `Headers` is abstracted to first-appearance order; names and
combined values are faithful.) -/
def headersFill (entries : JsonObj) : JsonObj :=
  entries.foldl addHeader []

/-- The `headerEntries` expression of `createHeaders`:
`headers instanceof Headers ? Object.fromEntries(headers.entries()) : headers`.
A `Headers` instance contributes its observable (lowercased, combined)
entries; a plain object contributes its entries as written. -/
def headerEntries : HeaderInit → JsonObj
  | .record e => e
  | .headersObj e => headersFill e

/-- Method `createHeaders`: the object spread of the caller's entries
over the base headers, passed through the `Headers` constructor —
`new Headers({...baseHeaders, ...headerEntries})` — whose fill
lowercases names and combines case-variant duplicates. -/
def createHeaders (cfg : Config) (session : Session) (headers : HeaderInit) : JsonObj :=
  headersFill (spreadMerge (baseHeaders cfg session) (headerEntries headers))

/-- The body attachment of `request`: `if (body) config.body = body` —
the body lands in the fetch config only when truthy, so an empty string
is dropped. -/
def attachBody : Option String → Option String
  | none => none
  | some s => if s == "" then none else some s

/-- Rendering of a `RefreshRes` back to the JSON object the code throws
in `new HttpError(401, refreshTokenRes)`. -/
def refreshResObj (r : RefreshRes) : JsonObj :=
  (match r.error with | some e => [("error", e)] | none => []) ++
    (match r.access_token with | some t => [("access_token", t)] | none => [])

/-- The interpreter for `clients.request` (and, inlined in the 401
branch, `clients.handleAuthError`), one source step per unit of fuel:

* resolve the URL, build the headers from the current session, attach the
  body when truthy, and consume the next scripted `fetch` outcome;
* on ok: return the parsed payload;
* on transport failure: throw `HttpError(500, {error:'Network error'})`;
* on 401: `handleAuthError` — throw
  `HttpError(401, {error:'invalid_refresh_token'})` when the stored
  refresh token is falsy; otherwise consume the next scripted refresh
  outcome; when it reports `invalid_refresh_token`, throw
  `HttpError(401, <that object>)`; otherwise write its `access_token`
  into the session store and re-enter `request` with the original url,
  method, caller headers and body;
* on any other non-ok status: throw `HttpError(status, body)`. -/
def requestGo (cfg : Config) (w : World) :
    Nat → String → Method → HeaderInit → Option String → ClientState → ReqResult × ClientState
  | 0, _, _, _, _, st => (.outOfFuel, st)
  | fuel + 1, url, method, headers, body, st =>
    let fullUrl := resolveUrl cfg.backendUrl url
    let sentHeaders := createHeaders cfg st.session headers
    let sentBody := attachBody body
    let st1 : ClientState :=
      { st with
        fetchCount := st.fetchCount + 1
        trace := st.trace ++ [.fetchEv fullUrl method sentHeaders sentBody] }
    match w.fetches st.fetchCount with
    | .ok payload => (.ok payload, st1)
    | .netFail => (.err ⟨500, [("error", "Network error")]⟩, st1)
    | .errStatus status errBody =>
      if status == 401 then
        if truthy st1.session.refreshToken then
          let r := w.refreshes st1.refreshCount
          let st2 : ClientState :=
            { st1 with
              refreshCount := st1.refreshCount + 1
              trace := st1.trace ++ [.refreshEv] }
          if r.error == some "invalid_refresh_token" then
            (.err ⟨401, refreshResObj r⟩, st2)
          else
            requestGo cfg w fuel url method headers body
              { st2 with session := { st2.session with accessToken := r.access_token } }
        else (.err ⟨401, [("error", "invalid_refresh_token")]⟩, st1)
      else (.err ⟨status, errBody⟩, st1)

/-- Method `clients.get`. -/
def clientsGet (cfg : Config) (w : World) (fuel : Nat) (url : String) (headers : HeaderInit)
    (st : ClientState) : ReqResult × ClientState :=
  requestGo cfg w fuel url .GET headers none st

/-- Method `clients.post` (body is a required `BodyInit`, modelled as
the string payload). -/
def clientsPost (cfg : Config) (w : World) (fuel : Nat) (url : String) (body : String)
    (headers : HeaderInit) (st : ClientState) : ReqResult × ClientState :=
  requestGo cfg w fuel url .POST headers (some body) st

/-- Method `clients.put`. -/
def clientsPut (cfg : Config) (w : World) (fuel : Nat) (url : String) (body : String)
    (headers : HeaderInit) (st : ClientState) : ReqResult × ClientState :=
  requestGo cfg w fuel url .PUT headers (some body) st

/-- Method `clients.delete`. -/
def clientsDelete (cfg : Config) (w : World) (fuel : Nat) (url : String) (headers : HeaderInit)
    (st : ClientState) : ReqResult × ClientState :=
  requestGo cfg w fuel url .DELETE headers none st

/-- The result a single request attempt settles to when its fetch
outcome does not take the 401 branch: the parsed payload on ok, the
`HttpError` with the real status and body on non-ok, the network
sentinel on transport failure. -/
def settle : FetchOutcome → ReqResult
  | .ok p => .ok p
  | .errStatus status body => .err ⟨status, body⟩
  | .netFail => .err ⟨500, [("error", "Network error")]⟩

/-- Whether a fetch outcome is a 401 response (the outcome taking the
`handleAuthError` branch). -/
def is401 : FetchOutcome → Bool
  | .errStatus status _ => status == 401
  | _ => false

/-! ## Helper lemmas: the interpreter only appends to the trace and only
increments the counters -/

/-- A run of `requestGo` extends the incoming trace at its end. -/
theorem requestGo_trace_mono (cfg : Config) (w : World) :
    ∀ (fuel : Nat) (url : String) (m : Method) (hs : HeaderInit) (b : Option String)
      (st : ClientState),
      st.trace <+: (requestGo cfg w fuel url m hs b st).2.trace := by
  intro fuel
  induction fuel with
  | zero => intro url m hs b st; simp [requestGo]
  | succ n ih =>
    intro url m hs b st
    simp only [requestGo]
    cases hf : w.fetches st.fetchCount with
    | ok p => simp
    | netFail => simp
    | errStatus status errBody =>
      by_cases h401 : (status == 401) = true
      · simp only [h401, if_true]
        by_cases htok : truthy st.session.refreshToken = true
        · simp only [htok, if_true]
          by_cases hinv :
              ((w.refreshes st.refreshCount).error == some "invalid_refresh_token") = true
          · simp [hinv]
          · simp only [Bool.not_eq_true] at hinv
            simp only [hinv, Bool.false_eq_true, if_false]
            refine List.IsPrefix.trans ?_ (ih url m hs b _)
            simp [List.append_assoc]
        · simp only [Bool.not_eq_true] at htok
          simp [htok]
      · simp only [Bool.not_eq_true] at h401
        simp [h401]

/-- A run of `requestGo` never decreases the refresh-call counter. -/
theorem requestGo_refreshCount_mono (cfg : Config) (w : World) :
    ∀ (fuel : Nat) (url : String) (m : Method) (hs : HeaderInit) (b : Option String)
      (st : ClientState),
      st.refreshCount ≤ (requestGo cfg w fuel url m hs b st).2.refreshCount := by
  intro fuel
  induction fuel with
  | zero => intro url m hs b st; simp [requestGo]
  | succ n ih =>
    intro url m hs b st
    simp only [requestGo]
    cases hf : w.fetches st.fetchCount with
    | ok p => simp
    | netFail => simp
    | errStatus status errBody =>
      by_cases h401 : (status == 401) = true
      · simp only [h401, if_true]
        by_cases htok : truthy st.session.refreshToken = true
        · simp only [htok, if_true]
          by_cases hinv :
              ((w.refreshes st.refreshCount).error == some "invalid_refresh_token") = true
          · simp [hinv]
          · simp only [Bool.not_eq_true] at hinv
            simp only [hinv, Bool.false_eq_true, if_false]
            exact le_trans (by simp) (ih url m hs b _)
        · simp only [Bool.not_eq_true] at htok
          simp [htok]
      · simp only [Bool.not_eq_true] at h401
        simp [h401]

/-! ## Claim theorems: HTTP client -/

/-- C2: for every request receiving a non-401, non-ok response, the
operation fails with an API error whose numeric status equals the
response's actual status code and whose payload is the parsed error body
of that response. -/
theorem non401_error_status (cfg : Config) (w : World) (fuel : Nat) (url : String) (m : Method)
    (hs : HeaderInit) (b : Option String) (st : ClientState) (n : Nat) (eb : JsonObj)
    (h1 : w.fetches st.fetchCount = .errStatus n eb) (h2 : (n == 401) = false) :
    (requestGo cfg w (fuel + 1) url m hs b st).1 = .err ⟨n, eb⟩ := by
  simp [requestGo, h1, h2]

/-- Witness for `non401_error_status`: a GET answered with 404 and body
`{message: "not found"}` fails with status 404 and that body. -/
theorem non401_error_status_witness :
    (requestGo ⟨"http://b", "k", "true"⟩
          ⟨fun _ => .errStatus 404 [("message", "not found")], fun _ => ⟨none, none⟩⟩ 1 "users"
          .GET (.record []) none ⟨⟨none, none⟩, 0, 0, []⟩).1 =
      .err ⟨404, [("message", "not found")]⟩ :=
  non401_error_status _ _ 0 _ _ _ _ _ 404 _ rfl (by decide)

/-- C3: for every request receiving a 401 while the stored refresh token
is absent, the call fails immediately with the invalid-refresh-token
error, the session store is untouched, and no call to the refresh
endpoint occurs. -/
theorem missing_refresh_token_fails_fast (cfg : Config) (w : World) (fuel : Nat) (url : String)
    (m : Method) (hs : HeaderInit) (b : Option String) (sess : Session) (eb : JsonObj)
    (h1 : w.fetches 0 = .errStatus 401 eb) (h2 : sess.refreshToken = none) :
    (requestGo cfg w (fuel + 1) url m hs b ⟨sess, 0, 0, []⟩).1 =
        .err ⟨401, [("error", "invalid_refresh_token")]⟩ ∧
      (requestGo cfg w (fuel + 1) url m hs b ⟨sess, 0, 0, []⟩).2.refreshCount = 0 ∧
      (requestGo cfg w (fuel + 1) url m hs b ⟨sess, 0, 0, []⟩).2.session = sess ∧
      Event.refreshEv ∉ (requestGo cfg w (fuel + 1) url m hs b ⟨sess, 0, 0, []⟩).2.trace := by
  simp [requestGo, h1, h2, truthy]

/-- Witness for `missing_refresh_token_fails_fast` at a concrete world
with no stored refresh token. -/
theorem missing_refresh_token_fails_fast_witness :
    (requestGo ⟨"http://b", "k", "true"⟩ ⟨fun _ => .errStatus 401 [], fun _ => ⟨none, none⟩⟩ 1
          "users" .GET (.record []) none ⟨⟨some "AT", none⟩, 0, 0, []⟩).1 =
        .err ⟨401, [("error", "invalid_refresh_token")]⟩ ∧
      (requestGo ⟨"http://b", "k", "true"⟩ ⟨fun _ => .errStatus 401 [], fun _ => ⟨none, none⟩⟩ 1
          "users" .GET (.record []) none ⟨⟨some "AT", none⟩, 0, 0, []⟩).2.refreshCount = 0 ∧
      (requestGo ⟨"http://b", "k", "true"⟩ ⟨fun _ => .errStatus 401 [], fun _ => ⟨none, none⟩⟩ 1
          "users" .GET (.record []) none ⟨⟨some "AT", none⟩, 0, 0, []⟩).2.session = ⟨some "AT", none⟩ ∧
      Event.refreshEv ∉
        (requestGo ⟨"http://b", "k", "true"⟩ ⟨fun _ => .errStatus 401 [], fun _ => ⟨none, none⟩⟩ 1
            "users" .GET (.record []) none ⟨⟨some "AT", none⟩, 0, 0, []⟩).2.trace :=
  missing_refresh_token_fails_fast _ _ 0 _ _ _ _ ⟨some "AT", none⟩ _ rfl rfl

/-- C1 counterexample: a request whose retries keep answering 401 while
the refresh endpoint keeps succeeding calls the refresh endpoint once per
*attempt*, not once per original request: within the first three
interpreter steps of one original request the refresh endpoint is already
called three times and three fetches have been issued, so neither "the
refresh flow is invoked exactly once" nor "the retry never triggers a
further refresh" holds, and the run is still going (out of fuel rather
than terminated). -/
theorem refresh_not_once_cex :
    (requestGo ⟨"http://b", "k", "true"⟩
            ⟨fun _ => .errStatus 401 [], fun _ => ⟨none, some "newTok"⟩⟩ 3 "users" .GET (.record []) none
            ⟨⟨none, some "rt"⟩, 0, 0, []⟩).2.refreshCount = 3 ∧
      (requestGo ⟨"http://b", "k", "true"⟩
            ⟨fun _ => .errStatus 401 [], fun _ => ⟨none, some "newTok"⟩⟩ 3 "users" .GET (.record []) none
            ⟨⟨none, some "rt"⟩, 0, 0, []⟩).2.fetchCount = 3 ∧
      (requestGo ⟨"http://b", "k", "true"⟩
            ⟨fun _ => .errStatus 401 [], fun _ => ⟨none, some "newTok"⟩⟩ 3 "users" .GET (.record []) none
            ⟨⟨none, some "rt"⟩, 0, 0, []⟩).1 = .outOfFuel := by
  refine ⟨rfl, rfl, rfl⟩

/-- C1 amended: on a 401 whose refresh succeeds and whose single retry
is answered with anything but another 401 (a 2xx payload, a non-401
error status, or a transport failure), the refresh endpoint is called
exactly once and exactly one retry is issued, with the identical URL,
method, caller-supplied headers and body; the retry's effective headers
are rebuilt from the same caller headers against the refreshed session
(so its Authorization can reflect the new token), and the result the
retry settles to — payload, `HttpError` with the retry's status and
body, or the network sentinel — is returned. (The bound to one refresh
holds only because the retry is not answered 401: the retry re-enters
the full request flow, as `refresh_not_once_cex` shows.) -/
theorem refresh_retry_on_success (cfg : Config) (w : World) (fuel : Nat) (url : String)
    (m : Method) (hs : HeaderInit) (b : Option String) (sess : Session) (eb : JsonObj)
    (t : String) (htok : truthy sess.refreshToken = true)
    (hf0 : w.fetches 0 = .errStatus 401 eb) (hf1 : is401 (w.fetches 1) = false)
    (hr0 : w.refreshes 0 = ⟨none, some t⟩) :
    requestGo cfg w (fuel + 2) url m hs b ⟨sess, 0, 0, []⟩ =
      (settle (w.fetches 1),
        ⟨{ sess with accessToken := some t }, 2, 1,
          [.fetchEv (resolveUrl cfg.backendUrl url) m (createHeaders cfg sess hs) (attachBody b),
            .refreshEv,
            .fetchEv (resolveUrl cfg.backendUrl url) m
              (createHeaders cfg { sess with accessToken := some t } hs) (attachBody b)]⟩) := by
  have h2 : fuel + 2 = (fuel + 1) + 1 := rfl
  rw [h2]
  cases hshape : w.fetches 1 with
  | ok p => simp [requestGo, hf0, hr0, htok, hshape, settle]
  | errStatus n eb2 =>
    have hn : (n == 401) = false := by simpa [is401, hshape] using hf1
    simp [requestGo, hf0, hr0, htok, hshape, settle, hn]
  | netFail => simp [requestGo, hf0, hr0, htok, hshape, settle]

/-- Witness for `refresh_retry_on_success` at a concrete world: one 401,
one successful refresh, one retry answered 404 — the retry's 404 error
is returned after exactly one refresh and one retry. -/
theorem refresh_retry_on_success_witness :
    requestGo ⟨"http://b", "k", "true"⟩
        ⟨fun n =>
            if n == 0 then .errStatus 401 [] else .errStatus 404 [("message", "not found")],
          fun _ => ⟨none, some "newTok"⟩⟩ 2
        "users" .GET (.record []) none ⟨⟨none, some "rt"⟩, 0, 0, []⟩ =
      (.err ⟨404, [("message", "not found")]⟩,
        ⟨⟨some "newTok", some "rt"⟩, 2, 1,
          [.fetchEv "http://b/users" .GET
              [("content-type", "application/json"), ("x-blocks-key", "k")] none,
            .refreshEv,
            .fetchEv "http://b/users" .GET
              [("content-type", "application/json"), ("x-blocks-key", "k")] none]⟩) := by
  have h := refresh_retry_on_success ⟨"http://b", "k", "true"⟩
    ⟨fun n => if n == 0 then .errStatus 401 [] else .errStatus 404 [("message", "not found")],
      fun _ => ⟨none, some "newTok"⟩⟩ 0
    "users" .GET (.record []) none ⟨none, some "rt"⟩ [] "newTok" (by decide) rfl rfl rfl
  rw [h]
  rfl

/-- C6 counterexample: the source tests `url.startsWith('http')`, not
absoluteness. The path "httpfoo" is not an absolute URL, yet it is passed
through unchanged instead of being prefixed with the base URL. -/
theorem resolveUrl_not_spec_cex :
    isAbsoluteUrl "httpfoo" = false ∧ resolveUrl "b" "httpfoo" = "httpfoo" ∧
      ¬resolveUrl "b" "httpfoo" =
          stripTrailingSlash "b" ++ "/" ++ stripLeadingSlash "httpfoo" := by
  refine ⟨rfl, rfl, by decide⟩

/-- C6 amended: a URL beginning with "http" — which includes every
absolute http(s) URL, but also any relative path that happens to begin
with "http" — is passed through unchanged; every other path is prefixed
with the configured base URL with exactly one slash at the junction (the
joined parts carry no further slash at the junction), for every base URL
with at most one trailing slash and every path with at most one leading
slash. -/
theorem resolveUrl_amended (backendUrl url : String)
    (hb : strEndsWith (stripTrailingSlash backendUrl) "/" = false)
    (hu : strStartsWith (stripLeadingSlash url) "/" = false) :
    (strStartsWith url "http" = true → resolveUrl backendUrl url = url) ∧
      (strStartsWith url "http" = false →
        resolveUrl backendUrl url =
            stripTrailingSlash backendUrl ++ "/" ++ stripLeadingSlash url ∧
          strEndsWith (stripTrailingSlash backendUrl) "/" = false ∧
          strStartsWith (stripLeadingSlash url) "/" = false) := by
  constructor
  · intro h; simp [resolveUrl, h]
  · intro h; exact ⟨by simp [resolveUrl, h], hb, hu⟩

/-- Witness for `resolveUrl_amended`: base with a trailing slash, path
with a leading slash, joined with exactly one separator. -/
theorem resolveUrl_amended_witness :
    resolveUrl "http://b/" "/users" =
        stripTrailingSlash "http://b/" ++ "/" ++ stripLeadingSlash "/users" ∧
      strEndsWith (stripTrailingSlash "http://b/") "/" = false ∧
      strStartsWith (stripLeadingSlash "/users") "/" = false :=
  (resolveUrl_amended "http://b/" "/users" (by decide) (by decide)).2 (by decide)

/-! ## Helper lemmas: association-list lookup through the object spread -/

/-- C8: across a whole request run, the refresh token stored in the
session is never written by the client, and the session state changes at
all only if some consulted refresh outcome was a success (its `error`
field was not the invalid-refresh-token tag); contrapositively, on every
run consulting no successful refresh — plain success, API error,
transport error, absent or rejected refresh token — the session is left
unchanged. -/
theorem session_frame (cfg : Config) (w : World) :
    ∀ (fuel : Nat) (url : String) (m : Method) (hs : HeaderInit) (b : Option String)
      (st : ClientState),
      (requestGo cfg w fuel url m hs b st).2.session.refreshToken = st.session.refreshToken ∧
        ((requestGo cfg w fuel url m hs b st).2.session ≠ st.session →
          ∃ k, st.refreshCount ≤ k ∧
            k < (requestGo cfg w fuel url m hs b st).2.refreshCount ∧
            ((w.refreshes k).error == some "invalid_refresh_token") = false) := by
  intro fuel
  induction fuel with
  | zero => intro url m hs b st; exact ⟨rfl, fun h => absurd rfl h⟩
  | succ n ih =>
    intro url m hs b st
    simp only [requestGo]
    cases hf : w.fetches st.fetchCount with
    | ok p => exact ⟨rfl, fun h => absurd rfl h⟩
    | netFail => exact ⟨rfl, fun h => absurd rfl h⟩
    | errStatus status errBody =>
      by_cases h401 : (status == 401) = true
      · simp only [h401, if_true]
        by_cases htok : truthy st.session.refreshToken = true
        · simp only [htok, if_true]
          by_cases hinv :
              ((w.refreshes st.refreshCount).error == some "invalid_refresh_token") = true
          · simp only [hinv, if_true]
            exact ⟨by trivial, fun h => absurd rfl h⟩
          · simp only [Bool.not_eq_true] at hinv
            simp only [hinv, Bool.false_eq_true, if_false]
            refine ⟨(ih url m hs b _).1, fun _ => ⟨st.refreshCount, le_refl _, ?_, hinv⟩⟩
            have hmono :
                st.refreshCount + 1 ≤ (requestGo cfg w n url m hs b
                    ⟨⟨(w.refreshes st.refreshCount).access_token, st.session.refreshToken⟩,
                      st.fetchCount + 1, st.refreshCount + 1,
                      (st.trace ++
                          [.fetchEv (resolveUrl cfg.backendUrl url) m
                            (createHeaders cfg st.session hs) (attachBody b)]) ++
                        [.refreshEv]⟩).2.refreshCount :=
              requestGo_refreshCount_mono cfg w n url m hs b
                ⟨⟨(w.refreshes st.refreshCount).access_token, st.session.refreshToken⟩,
                  st.fetchCount + 1, st.refreshCount + 1,
                  (st.trace ++
                      [.fetchEv (resolveUrl cfg.backendUrl url) m
                        (createHeaders cfg st.session hs) (attachBody b)]) ++
                    [.refreshEv]⟩
            exact lt_of_lt_of_le (Nat.lt_succ_self _) hmono
        · simp only [Bool.not_eq_true] at htok
          simp only [htok, Bool.false_eq_true, if_false]
          exact ⟨by trivial, fun h => absurd rfl h⟩
      · simp only [Bool.not_eq_true] at h401
        simp only [h401, Bool.false_eq_true, if_false]
        exact ⟨by trivial, fun h => absurd rfl h⟩

/-- Witness for `session_frame`: in a run whose session did change, some
consulted refresh outcome was a success. -/
theorem session_frame_witness :
    (requestGo ⟨"http://b", "k", "true"⟩
            ⟨fun n => if n == 0 then .errStatus 401 [] else .ok "P",
              fun _ => ⟨none, some "newTok"⟩⟩ 2 "users" .GET (.record []) none
            ⟨⟨none, some "rt"⟩, 0, 0, []⟩).2.session.refreshToken = some "rt" ∧
      ∃ k, 0 ≤ k ∧
        k < (requestGo ⟨"http://b", "k", "true"⟩
              ⟨fun n => if n == 0 then .errStatus 401 [] else .ok "P",
                fun _ => ⟨none, some "newTok"⟩⟩ 2 "users" .GET (.record []) none
              ⟨⟨none, some "rt"⟩, 0, 0, []⟩).2.refreshCount ∧
        (((⟨fun n => if n == 0 then .errStatus 401 [] else .ok "P",
              fun _ => ⟨none, some "newTok"⟩⟩ : World).refreshes k).error ==
            some "invalid_refresh_token") = false := by
  have h := session_frame ⟨"http://b", "k", "true"⟩
    ⟨fun n => if n == 0 then .errStatus 401 [] else .ok "P", fun _ => ⟨none, some "newTok"⟩⟩ 2
    "users" .GET (.record []) none ⟨⟨none, some "rt"⟩, 0, 0, []⟩
  exact ⟨h.1, h.2 (by decide)⟩

/-- The first event of a run started with an empty trace is the fetch of
the original request, with the body `attachBody` yields. -/
theorem requestGo_head_event (cfg : Config) (w : World) (fuel : Nat) (url : String) (m : Method)
    (hs : HeaderInit) (b : Option String) (st : ClientState) (h : st.trace = []) :
    (requestGo cfg w (fuel + 1) url m hs b st).2.trace.head? =
      some (.fetchEv (resolveUrl cfg.backendUrl url) m (createHeaders cfg st.session hs)
        (attachBody b)) := by
  simp only [requestGo]
  cases hf : w.fetches st.fetchCount with
  | ok p => simp [h]
  | netFail => simp [h]
  | errStatus status errBody =>
    by_cases h401 : (status == 401) = true
    · simp only [h401, if_true]
      by_cases htok : truthy st.session.refreshToken = true
      · simp only [htok, if_true]
        by_cases hinv :
            ((w.refreshes st.refreshCount).error == some "invalid_refresh_token") = true
        · simp [hinv, h]
        · simp only [Bool.not_eq_true] at hinv
          simp only [hinv, Bool.false_eq_true, if_false]
          have hpre :
              (requestGo cfg w fuel url m hs b
                  ⟨⟨(w.refreshes st.refreshCount).access_token, st.session.refreshToken⟩,
                    st.fetchCount + 1, st.refreshCount + 1,
                    (st.trace ++
                        [.fetchEv (resolveUrl cfg.backendUrl url) m
                          (createHeaders cfg st.session hs) (attachBody b)]) ++
                      [.refreshEv]⟩).2.trace.head? =
                some (.fetchEv (resolveUrl cfg.backendUrl url) m
                  (createHeaders cfg st.session hs) (attachBody b)) := by
            obtain ⟨t, ht⟩ := requestGo_trace_mono cfg w fuel url m hs b
              ⟨⟨(w.refreshes st.refreshCount).access_token, st.session.refreshToken⟩,
                st.fetchCount + 1, st.refreshCount + 1,
                (st.trace ++
                    [.fetchEv (resolveUrl cfg.backendUrl url) m
                      (createHeaders cfg st.session hs) (attachBody b)]) ++ [.refreshEv]⟩
            rw [← ht]
            simp [h]
          exact hpre
      · simp only [Bool.not_eq_true] at htok
        simp [htok, h]
    · simp only [Bool.not_eq_true] at h401
      simp [h401, h]

/-- C10: a POST or PUT whose body is the empty string issues its network
request with no body at all: `attachBody` drops the falsy empty string,
so the first fetch event of the run carries body `none`. -/
theorem empty_body_omitted (cfg : Config) (w : World) (fuel : Nat) (url : String) (hs : HeaderInit)
    (st : ClientState) (h : st.trace = []) :
    (clientsPost cfg w (fuel + 1) url "" hs st).2.trace.head? =
        some (.fetchEv (resolveUrl cfg.backendUrl url) .POST (createHeaders cfg st.session hs)
          none) ∧
      (clientsPut cfg w (fuel + 1) url "" hs st).2.trace.head? =
        some (.fetchEv (resolveUrl cfg.backendUrl url) .PUT (createHeaders cfg st.session hs)
          none) ∧
      attachBody (some "") = none :=
  ⟨requestGo_head_event cfg w fuel url .POST hs (some "") st h,
    requestGo_head_event cfg w fuel url .PUT hs (some "") st h, rfl⟩

/-- Witness for `empty_body_omitted` at a concrete world: the issued
request of an empty-string POST carries no body. -/
theorem empty_body_omitted_witness :
    (clientsPost ⟨"http://b", "k", "true"⟩ ⟨fun _ => .ok "P", fun _ => ⟨none, none⟩⟩ 1 "users" ""
          (.record []) ⟨⟨none, none⟩, 0, 0, []⟩).2.trace.head? =
      some (.fetchEv "http://b/users" .POST
        [("content-type", "application/json"), ("x-blocks-key", "k")] none) := by
  have h := empty_body_omitted ⟨"http://b", "k", "true"⟩ ⟨fun _ => .ok "P", fun _ => ⟨none, none⟩⟩
    0 "users" (.record []) ⟨⟨none, none⟩, 0, 0, []⟩ rfl
  rw [h.1]
  rfl

/-! ## Helper lemmas: the filter combinators -/

/-- Two sequential filters commute. -/
theorem filter_swap {α : Type} (p q : α → Bool) :
    ∀ l : List α, (l.filter p).filter q = (l.filter q).filter p := by
  intro l
  induction l with
  | nil => rfl
  | cons a l ih =>
    by_cases hp : p a = true <;> by_cases hq : q a = true <;>
      simp [List.filter_cons, hp, hq, ih]

/-- Two sequential filters fuse into one conjunction filter. -/
theorem filter_fuse {α : Type} (p q : α → Bool) :
    ∀ l : List α, (l.filter p).filter q = l.filter fun a => p a && q a := by
  intro l
  induction l with
  | nil => rfl
  | cons a l ih =>
    by_cases hp : p a = true <;> by_cases hq : q a = true <;>
      simp [List.filter_cons, hp, hq, ih]

/-- A filter after a map is the map after the precomposed filter. -/
theorem filter_of_map {α : Type} (f : α → α) (p : α → Bool) :
    ∀ l : List α, (l.map f).filter p = (l.filter fun a => p (f a)).map f := by
  intro l
  induction l with
  | nil => rfl
  | cons a l ih =>
    by_cases hp : p (f a) = true <;> simp [List.filter_cons, hp, ih]

/-- A group-level filter whose predicate the item-shrinking map leaves
unchanged commutes with a map-then-drop-empty stage. -/
theorem filter_mstage_comm {α : Type} (f : α → α) (pd ne : α → Bool)
    (hpd : ∀ a, pd (f a) = pd a) (l : List α) :
    ((l.map f).filter ne).filter pd = ((l.filter pd).map f).filter ne := by
  have hp : (fun a => pd (f a)) = pd := funext hpd
  rw [filter_swap ne pd, filter_of_map f pd, hp]

/-- Two map-then-drop-empty stages commute when the maps commute and
each map's emptiness absorbs the previous one. -/
theorem mstage_comm {α : Type} (f g : α → α) (ne : α → Bool)
    (hcomm : ∀ a, f (g a) = g (f a))
    (habsg : ∀ a, (ne (g a) && ne (f (g a))) = ne (f (g a)))
    (habsf : ∀ a, (ne (f a) && ne (g (f a))) = ne (g (f a)))
    (l : List α) :
    (((l.map g).filter ne).map f).filter ne = (((l.map f).filter ne).map g).filter ne := by
  rw [filter_of_map f ne, filter_fuse, filter_of_map g ne, filter_fuse,
    filter_of_map g _ l, filter_of_map f _ l, List.map_map, List.map_map]
  have h1 : (fun a => ne (g a) && ne (f (g a))) = fun a => ne (f (g a)) := funext habsg
  have h2 : (fun a => ne (f a) && ne (g (f a))) = fun a => ne (g (f a)) := funext habsf
  have h3 : (fun a => ne (f (g a))) = fun a => ne (g (f a)) := by
    funext a; rw [hcomm]
  have h4 : (f ∘ g) = (g ∘ f) := funext hcomm
  rw [h1, h2, h3, h4]

/-- Nonemptiness of a filtered list absorbs nonemptiness of the list. -/
theorem nonempty_absorb {α : Type} (p : α → Bool) (xs : List α) :
    (decide (0 < xs.length) && decide (0 < (xs.filter p).length)) =
      decide (0 < (xs.filter p).length) := by
  cases xs with
  | nil => rfl
  | cons a l => simp

/-- The date stage commutes with the text stage. -/
theorem stageDate_stageText_comm (r : Option DateRange) (q : String) (l : List ActivityGroup) :
    stageDate r (stageText q l) = stageText q (stageDate r l) := by
  rcases r with _ | ⟨fd, td⟩
  · rfl
  rcases fd with _ | f
  · rfl
  rcases td with _ | t
  · rfl
  by_cases hq : (q == "") = true
  · simp [stageDate, stageText, hq]
  · simp only [Bool.not_eq_true] at hq
    simp only [stageDate, stageText, hq, Bool.false_eq_true, if_false]
    exact filter_mstage_comm
      (fun group => { group with items := group.items.filter (matchesQuery q) })
      (fun activity => decide (f ≤ activity.date) && decide (activity.date ≤ t))
      (fun group => decide (0 < group.items.length)) (fun a => rfl) l

/-- The date stage commutes with the category stage. -/
theorem stageDate_stageCat_comm (r : Option DateRange) (c : List String)
    (l : List ActivityGroup) :
    stageDate r (stageCat c l) = stageCat c (stageDate r l) := by
  rcases r with _ | ⟨fd, td⟩
  · rfl
  rcases fd with _ | f
  · rfl
  rcases td with _ | t
  · rfl
  by_cases hc : 0 < c.length
  · simp only [stageDate, stageCat, hc, if_true]
    exact filter_mstage_comm
      (fun group =>
        { group with
          items := group.items.filter fun item => c.contains (transformCategory item.category) })
      (fun activity => decide (f ≤ activity.date) && decide (activity.date ≤ t))
      (fun group => decide (0 < group.items.length)) (fun a => rfl) l
  · simp [stageDate, stageCat, hc]

/-- The text stage commutes with the category stage. -/
theorem stageText_stageCat_comm (q : String) (c : List String) (l : List ActivityGroup) :
    stageText q (stageCat c l) = stageCat c (stageText q l) := by
  by_cases hq : (q == "") = true
  · simp [stageText, hq]
  by_cases hc : 0 < c.length
  · simp only [Bool.not_eq_true] at hq
    simp only [stageText, stageCat, hq, Bool.false_eq_true, if_false, hc, if_true]
    refine mstage_comm _ _ _ (fun a => ?_) (fun a => ?_) (fun a => ?_) l
    · cases a with
      | mk date items => exact congrArg (ActivityGroup.mk date) (filter_swap _ _ items)
    · exact nonempty_absorb _ _
    · exact nonempty_absorb _ _
  · simp [stageCat, hc]

/-! ## Claim theorems: filter engine -/

/-- C4: the three filter stages applied in any of the six sequential
orders yield the filtered output of the implemented order
date-then-text-then-category, for every source list and every combination
of criteria. -/
theorem filter_order_irrelevant (all : List ActivityGroup) (query : String)
    (range : Option DateRange) (categories : List String) :
    stageText query (stageCat categories (stageDate range all)) =
        filterActivities all query range categories ∧
      stageCat categories (stageDate range (stageText query all)) =
        filterActivities all query range categories ∧
      stageDate range (stageCat categories (stageText query all)) =
        filterActivities all query range categories ∧
      stageText query (stageDate range (stageCat categories all)) =
        filterActivities all query range categories ∧
      stageDate range (stageText query (stageCat categories all)) =
        filterActivities all query range categories := by
  unfold filterActivities
  refine ⟨?_, ?_, ?_, ?_, ?_⟩
  · rw [stageText_stageCat_comm]
  · rw [stageDate_stageText_comm]
  · rw [stageDate_stageCat_comm, stageDate_stageText_comm]
  · rw [stageDate_stageCat_comm, stageText_stageCat_comm]
  · rw [stageText_stageCat_comm, stageDate_stageCat_comm, stageDate_stageText_comm]

/-- C5: with a non-empty category set (and the other two criteria
inactive, isolating the last stage), the filter keeps exactly those items
whose category normalizes via `transformCategory` into the caller-supplied
set, and drops every group left with zero items; item retention is
precisely membership of the normalized category in the set. -/
theorem category_stage_spec (all : List ActivityGroup) (categories : List String)
    (h : 0 < categories.length) :
    filterActivities all "" none categories =
        (all.map fun group =>
            { group with
              items := group.items.filter fun item =>
                categories.contains (transformCategory item.category) }).filter
          (fun group => decide (0 < group.items.length)) ∧
      ∀ (group : ActivityGroup) (item : ActivityItem),
        item ∈ (group.items.filter fun i => categories.contains (transformCategory i.category)) ↔
          item ∈ group.items ∧ categories.contains (transformCategory item.category) = true := by
  refine ⟨?_, fun group item => by simp [List.mem_filter]⟩
  simp [filterActivities, stageDate, stageText, stageCat, h]

/-- Witness for `category_stage_spec`, on the worked example of the spec:
filtering the 2024-01-10 group for the normalized category "account"
keeps only the "Updated profile" item. -/
theorem category_stage_spec_witness :
    filterActivities
        [⟨1704844800000,
          [⟨"Login from Chrome", "Security Alert"⟩, ⟨"Updated profile", "Account"⟩]⟩] "" none
        ["account"] =
      [⟨1704844800000, [⟨"Updated profile", "Account"⟩]⟩] := by
  have h := category_stage_spec
    [⟨1704844800000, [⟨"Login from Chrome", "Security Alert"⟩, ⟨"Updated profile", "Account"⟩]⟩]
    ["account"] (by decide)
  rw [h.1]
  rfl

/-- Membership in the date stage's output implies membership in its
input. -/
theorem mem_stageDate {r : Option DateRange} {l : List ActivityGroup} {g : ActivityGroup}
    (h : g ∈ stageDate r l) : g ∈ l := by
  unfold stageDate at h
  split at h
  · split at h
    · exact (List.mem_filter.mp h).1
    · exact h
  · exact h

/-- Every group in the text stage's output arises from an input group
with the same date and a sublist of its items. -/
theorem mem_stageText {q : String} {l : List ActivityGroup} {g : ActivityGroup}
    (h : g ∈ stageText q l) :
    ∃ g₀ ∈ l, g.date = g₀.date ∧ g.items.Sublist g₀.items := by
  unfold stageText at h
  split at h
  · exact ⟨g, h, rfl, List.Sublist.refl _⟩
  · obtain ⟨hmem, -⟩ := List.mem_filter.mp h
    obtain ⟨g₀, hg₀, hmap⟩ := List.mem_map.mp hmem
    refine ⟨g₀, hg₀, ?_, ?_⟩
    · rw [← hmap]
    · rw [← hmap]
      exact List.filter_sublist _

/-- Every group in the category stage's output arises from an input
group with the same date and a sublist of its items. -/
theorem mem_stageCat {c : List String} {l : List ActivityGroup} {g : ActivityGroup}
    (h : g ∈ stageCat c l) :
    ∃ g₀ ∈ l, g.date = g₀.date ∧ g.items.Sublist g₀.items := by
  unfold stageCat at h
  split at h
  · obtain ⟨hmem, -⟩ := List.mem_filter.mp h
    obtain ⟨g₀, hg₀, hmap⟩ := List.mem_map.mp hmem
    refine ⟨g₀, hg₀, ?_, ?_⟩
    · rw [← hmap]
    · rw [← hmap]
      exact List.filter_sublist _
  · exact ⟨g, h, rfl, List.Sublist.refl _⟩

/-- C9: for every source list and every combination of criteria, each
group of the filter's output comes from a source group (same date) and
its items are a sublist of that source group's items; the source is an
input the embedding never mutates (the filter is a pure function of its
four arguments). -/
theorem filter_output_subset (all : List ActivityGroup) (query : String)
    (range : Option DateRange) (categories : List String) (g : ActivityGroup)
    (hg : g ∈ filterActivities all query range categories) :
    ∃ g₀ ∈ all, g.date = g₀.date ∧ g.items.Sublist g₀.items := by
  obtain ⟨g₁, h₁, hd₁, hs₁⟩ := mem_stageCat hg
  obtain ⟨g₂, h₂, hd₂, hs₂⟩ := mem_stageText h₁
  exact ⟨g₂, mem_stageDate h₂, hd₁.trans hd₂, hs₁.trans hs₂⟩

/-- Witness for `filter_output_subset`: a group of a concrete filtered
output traced back to its source group. -/
theorem filter_output_subset_witness :
    ∃ g₀ ∈ [(⟨1704844800000, [⟨"Login from Chrome", "Security Alert"⟩]⟩ : ActivityGroup)],
      (⟨1704844800000, [⟨"Login from Chrome", "Security Alert"⟩]⟩ : ActivityGroup).date =
          g₀.date ∧
        (⟨1704844800000, [⟨"Login from Chrome", "Security Alert"⟩]⟩ :
            ActivityGroup).items.Sublist g₀.items :=
  filter_output_subset [⟨1704844800000, [⟨"Login from Chrome", "Security Alert"⟩]⟩] "" none []
    ⟨1704844800000, [⟨"Login from Chrome", "Security Alert"⟩]⟩ (by decide)

end Blocks
